import Mathlib

/-!
Shallow embedding of the watchdog module `src/wdt.c` (GeneralEmbeddedCLibraries/watchdog),
built with both `WDT_CFG_STATS_EN` and `WDT_CFG_DEBUG_EN` enabled, so that the
statistics / trace subsystem is part of the model.

External collaborators (the platform interface `wdt_if_*` and the configuration
table `wdt_cfg_get_table`) are modelled as oracles: streams of values indexed by
a per-primitive call counter carried in the state.  Machine integers (`uint32_t`)
are modelled as `Nat` reduced modulo `2^32`; the cast to `int32_t` performed by
`wdt_check_task_reports` is modelled by `toInt32`.
-/

namespace Wdt

/-- The constant `2^32`, the modulus of `uint32_t` arithmetic. -/
def U32 : Nat := 4294967296

/-- Reduce a natural number to a `uint32_t` value. -/
def u32 (x : Nat) : Nat := x % U32

/-- Wrapping (modular) `uint32_t` subtraction `a - b`. -/
def wsub (a b : Nat) : Nat := (a + (U32 - b % U32)) % U32

/-- Reinterpret a `uint32_t` value as a signed `int32_t`
    (the C cast `(int32_t)x`). -/
def toInt32 (x : Nat) : Int :=
  if x % U32 < 2147483648 then ((x % U32 : Nat) : Int)
  else ((x % U32 : Nat) : Int) - (U32 : Int)

/-- Status type `wdt_status_t` from `wdt.h`. -/
inductive wdt_status : Type
  | eWDT_OK
  | eWDT_ERROR
  | eWDT_ERROR_INIT
  | eWDT_ERROR_CFG
deriving DecidableEq, Repr

open wdt_status

/-- Configuration entry `wdt_cfg_t` from `wdt.h` (the task name string, used only for debug
    prints, is omitted). -/
structure wdt_cfg : Type where
  timeout : Nat
  enable  : Bool
deriving DecidableEq, Repr

/-- Statistics record `wdt_stats_t` from `wdt.c` (the nested `time` struct is flattened). -/
structure wdt_stats : Type where
  avg            : Nat
  sum            : Nat
  min            : Nat
  max            : Nat
  num_of_reports : Nat
  num_of_samp    : Nat
deriving DecidableEq, Repr

/-- Task record `wdt_task_t` from `wdt.c`. -/
structure wdt_task : Type where
  report_timestamp : Nat
  enable           : Bool
deriving DecidableEq, Repr

/-- Constant `WDT_TRACE_BUFFER_SIZE` from `wdt.c`. -/
def WDT_TRACE_BUFFER_SIZE : Nat := 32

/-- Control block `wdt_ctrl_t` from `wdt.c`: the control block `g_wdt_ctrl`.
    Trace entries are task identifiers, modelled as `Nat`. -/
structure wdt_ctrl : Type where
  stats     : List wdt_stats
  trace     : List Nat
  task      : List wdt_task
  last_kick : Nat
  valid     : Bool
  start     : Bool
deriving DecidableEq, Repr

/-- Default `wdt_task` value used for out-of-range list reads. -/
def dTask : wdt_task := ⟨0, false⟩

/-- Default `wdt_stats` value used for out-of-range list reads. -/
def dStats : wdt_stats := ⟨0, 0, 0, 0, 0, 0⟩

/-- Default `wdt_cfg` value used for out-of-range list reads. -/
def dCfg : wdt_cfg := ⟨0, false⟩

/-- The oracle environment: platform primitives and the compile-time
    configuration.  `systick`, `mutex`, `if_init` and `if_start` give the
    result of the k-th call of the respective `wdt_if_*` primitive;
    `cfg` is the table returned by `wdt_cfg_get_table` (`none` = NULL);
    `nTasks` is `eWDT_TASK_NUM_OF` and `kick_period` is
    `WDT_CFG_KICK_PERIOD_TIME_MS`. -/
structure wdt_ext : Type where
  systick     : Nat → Nat
  mutex       : Nat → wdt_status
  if_init     : Nat → wdt_status
  if_start    : Nat → wdt_status
  cfg         : Option (List wdt_cfg)
  nTasks      : Nat
  kick_period : Nat

/-- The module state: `gb_is_init`, `g_wdt_ctrl`, `gp_wdt_cfg_table`, the
    static `timestamp` array of `wdt_stats_count_hndl`, and the call
    counters of the oracle streams. -/
structure wdt_state : Type where
  is_init   : Bool
  ctrl      : wdt_ctrl
  cfg_table : Option (List wdt_cfg)
  count_ts  : List Nat
  nSys      : Nat
  nMtx      : Nat
  nIfInit   : Nat
  nIfStart  : Nat
deriving DecidableEq

/-- Value of the `wdt_if_get_systick()` call number `k` (a `uint32_t`). -/
def sys_val (e : wdt_ext) (k : Nat) : Nat := u32 (e.systick k)

/-- Elapsed value `time_pass` as computed at `wdt.c:182`:
    `(int32_t)((uint32_t)wdt_if_get_systick() - report_timestamp)`. -/
def time_pass (now rts : Nat) : Int := toInt32 (wsub now rts)

/-- The trip test at `wdt.c:186`:
    `time_pass > (int32_t)gp_wdt_cfg_table[i].timeout`. -/
def task_trip (now rts tmo : Nat) : Bool := time_pass now rts > toInt32 tmo

/-- The loop body of `wdt_check_task_reports` (`wdt.c:176-195`), iterated
    over the list of task indices.  A fresh systick value is read for each
    enabled task; on the first violation `valid` is cleared and the scan
    stops (`break`). -/
def check_loop (e : wdt_ext) : wdt_state → List Nat → wdt_state
  | s, [] => s
  | s, i :: rest =>
    let t := s.ctrl.task.getD i dTask
    if t.enable = true then
      let now := sys_val e s.nSys
      let s1 := { s with nSys := s.nSys + 1 }
      let c := (s1.cfg_table.getD []).getD i dCfg
      if task_trip now t.report_timestamp c.timeout = true then
        { s1 with ctrl := { s1.ctrl with valid := false } }
      else
        check_loop e s1 rest
    else
      check_loop e s rest

/-- Function `wdt_check_task_reports` (`wdt.c:173-196`). -/
def wdt_check_task_reports (e : wdt_ext) (s : wdt_state) : wdt_state :=
  check_loop e s (List.range e.nTasks)

/-- Function `wdt_stats_calc` (`wdt.c:233-246`): fold one inter-report delta into a
    task's statistics.  `fminl`/`fmaxl` on `uint32_t` values are exact, so
    they are `Nat.min`/`Nat.max`. -/
def wdt_stats_calc (task : Nat) (timestamp timestamp_prev : Nat)
    (ctrl : wdt_ctrl) : wdt_ctrl :=
  let timestamp_dlt := wsub timestamp timestamp_prev
  let st := ctrl.stats.getD task dStats
  let num := u32 (st.num_of_samp + 1)
  let sum := u32 (st.sum + timestamp_dlt)
  let st1 : wdt_stats :=
    ⟨sum / num, sum, Nat.min st.min timestamp_dlt, Nat.max st.max timestamp_dlt,
      u32 (st.num_of_reports + 1), num⟩
  { ctrl with stats := ctrl.stats.set task st1 }

/-- Function `wdt_trace_buffer_put` (`wdt.c:256-266`), exactly as written: the loop
    runs `i = 0 .. WDT_TRACE_BUFFER_SIZE-2` in increasing order doing
    `trace[i+1] = trace[i]`, then `trace[0] = task`. -/
def wdt_trace_buffer_put (task : Nat) (trace : List Nat) : List Nat :=
  let tr := (List.range (WDT_TRACE_BUFFER_SIZE - 1)).foldl
      (fun t i => t.set (i + 1) (t.getD i 0)) trace
  tr.set 0 task

/-- Function `wdt_stats_clear_counts` (`wdt.c:275-281`). -/
def wdt_stats_clear_counts (n : Nat) (stats : List wdt_stats) : List wdt_stats :=
  (List.range n).foldl
    (fun l i => l.set i ({ l.getD i dStats with num_of_reports := 0 })) stats

/-- Function `wdt_stats_clear_timings` (`wdt.c:290-299`): timings zeroed, `min`
    seeded to `0xFFFFFFFF`. -/
def wdt_stats_clear_timings (n : Nat) (stats : List wdt_stats) : List wdt_stats :=
  (List.range n).foldl
    (fun l i => l.set i ({ l.getD i dStats with
        avg := 0, sum := 0, max := 0, min := 4294967295 })) stats

/-- Function `wdt_stats_init` (`wdt.c:207-215`): clear the trace buffer, then all
    counts and timings. -/
def wdt_stats_init (n : Nat) (ctrl : wdt_ctrl) : wdt_ctrl :=
  { ctrl with
      trace := List.replicate WDT_TRACE_BUFFER_SIZE 0
      stats := wdt_stats_clear_timings n (wdt_stats_clear_counts n ctrl.stats) }

/-- The loop body of `wdt_stats_count_hndl` (`wdt.c:317-327`), iterated over
    the list of task indices.  When a full timeout window has elapsed the
    window timestamp is refreshed from a second systick read and
    `stats[i].num_of_reports` is cleared. -/
def count_loop (e : wdt_ext) : wdt_state → List Nat → wdt_state
  | s, [] => s
  | s, i :: rest =>
    let now := sys_val e s.nSys
    let s1 := { s with nSys := s.nSys + 1 }
    let c := (s1.cfg_table.getD []).getD i dCfg
    if wsub now (s1.count_ts.getD i 0) ≥ c.timeout then
      let now2 := sys_val e s1.nSys
      let s2 := { s1 with nSys := s1.nSys + 1 }
      let st1 := { s2.ctrl.stats.getD i dStats with num_of_reports := 0 }
      let ctrl1 := { s2.ctrl with stats := s2.ctrl.stats.set i st1 }
      let s3 := { s2 with count_ts := s2.count_ts.set i now2, ctrl := ctrl1 }
      count_loop e s3 rest
    else
      count_loop e s1 rest

/-- Function `wdt_stats_count_hndl` (`wdt.c:313-328`). -/
def wdt_stats_count_hndl (e : wdt_ext) (s : wdt_state) : wdt_state :=
  count_loop e s (List.range e.nTasks)

/-- Function `wdt_kick_hndl` (`wdt.c:142-164`).  The returned `Bool` records whether
    `wdt_if_kick()` was invoked on this call. -/
def wdt_kick_hndl (e : wdt_ext) (s : wdt_state) : wdt_state × Bool :=
  let r :=
    if s.ctrl.valid = true then
      let timestamp := sys_val e s.nSys
      let s1 := { s with nSys := s.nSys + 1 }
      if wsub timestamp s1.ctrl.last_kick ≥ e.kick_period then
        ({ s1 with ctrl := { s1.ctrl with last_kick := timestamp } }, true)
      else
        (s1, false)
    else
      (s, false)
  (wdt_stats_count_hndl e r.1, r.2)

/-- Function `wdt_init` (`wdt.c:356-401`). -/
def wdt_init (e : wdt_ext) (s : wdt_state) : wdt_state × wdt_status :=
  if s.is_init = false then
    match e.cfg with
    | some table =>
      let s1 := { s with cfg_table := some table }
      let st := e.if_init s1.nIfInit
      let s2 := { s1 with nIfInit := s1.nIfInit + 1 }
      if st = eWDT_OK then
        let ctrl1 := { s2.ctrl with start := false }
        let task2 := (List.range e.nTasks).foldl
          (fun l i => l.set i ({ l.getD i dTask with enable := (table.getD i dCfg).enable }))
          ctrl1.task
        let ctrl2 := { ctrl1 with task := task2 }
        (⟨true, wdt_stats_init e.nTasks ctrl2, s2.cfg_table, s2.count_ts,
            s2.nSys, s2.nMtx, s2.nIfInit, s2.nIfStart⟩, eWDT_OK)
      else
        (s2, eWDT_ERROR_INIT)
    | none =>
      ({ s with cfg_table := none }, eWDT_ERROR_INIT)
  else
    (s, eWDT_OK)

/-- Function `wdt_is_init` (`wdt.c:411-425`).  `ptr_ok` models whether the caller
    passed a non-NULL destination pointer; the returned `Option Bool` is
    the value written through it. -/
def wdt_is_init (ptr_ok : Bool) (s : wdt_state) : wdt_state × wdt_status × Option Bool :=
  if ptr_ok then (s, eWDT_OK, some s.is_init) else (s, eWDT_ERROR, none)

/-- Function `wdt_hndl` (`wdt.c:444-471`).  The returned `Bool` records whether the
    hardware watchdog was kicked during this handler tick. -/
def wdt_hndl (e : wdt_ext) (s : wdt_state) : wdt_state × wdt_status × Bool :=
  if s.is_init = true then
    if s.ctrl.start = true then
      let s1 := wdt_check_task_reports e s
      let r := wdt_kick_hndl e s1
      (r.1, eWDT_OK, r.2)
    else
      (s, eWDT_ERROR, false)
  else
    (s, eWDT_ERROR_INIT, false)

/-- Function `wdt_start` (`wdt.c:485-524`). -/
def wdt_start (e : wdt_ext) (s : wdt_state) : wdt_state × wdt_status :=
  if s.is_init = true then
    let timestamp := sys_val e s.nSys
    let s1 := { s with nSys := s.nSys + 1 }
    let ctrl1 := { s1.ctrl with last_kick := timestamp, valid := true }
    let task2 := (List.range e.nTasks).foldl
      (fun l i => l.set i ({ l.getD i dTask with report_timestamp := timestamp }))
      ctrl1.task
    let ctrl2 := { ctrl1 with task := task2 }
    let s2 := { s1 with ctrl := ctrl2 }
    let st := e.if_start s2.nIfStart
    let s3 := { s2 with nIfStart := s2.nIfStart + 1 }
    if st = eWDT_OK then
      ({ s3 with ctrl := { s3.ctrl with start := true } }, eWDT_OK)
    else
      (s3, st)
  else
    (s, eWDT_ERROR_INIT)

/-- Function `wdt_task_report` (`wdt.c:537-581`).  Note that in the stats build the
    mutex result only gates the statistics / trace update: on failure the
    status stays `eWDT_OK` and the timestamp is still stored. -/
def wdt_task_report (e : wdt_ext) (task : Nat) (s : wdt_state) :
    wdt_state × wdt_status :=
  if s.is_init = true then
    if task < e.nTasks then
      let timestamp := sys_val e s.nSys
      let s1 := { s with nSys := s.nSys + 1 }
      let mst := e.mutex s1.nMtx
      let s2 := { s1 with nMtx := s1.nMtx + 1 }
      let s3 :=
        if mst = eWDT_OK then
          let ctrl1 := wdt_stats_calc task timestamp
              (s2.ctrl.task.getD task dTask).report_timestamp s2.ctrl
          { s2 with ctrl :=
              { ctrl1 with trace := wdt_trace_buffer_put task ctrl1.trace } }
        else
          s2
      let t1 := { s3.ctrl.task.getD task dTask with report_timestamp := timestamp }
      ({ s3 with ctrl := { s3.ctrl with task := s3.ctrl.task.set task t1 } }, eWDT_OK)
    else
      (s, eWDT_ERROR)
  else
    (s, eWDT_ERROR_INIT)

/-- Function `wdt_task_set_enable` (`wdt.c:596-632`).  Here the mutex status is the
    function's own status: on acquisition failure it is returned as-is. -/
def wdt_task_set_enable (e : wdt_ext) (task : Nat) (enable : Bool)
    (s : wdt_state) : wdt_state × wdt_status :=
  if s.is_init = true then
    if task < e.nTasks then
      let mst := e.mutex s.nMtx
      let s1 := { s with nMtx := s.nMtx + 1 }
      if mst = eWDT_OK then
        let ts := sys_val e s1.nSys
        let s2 := { s1 with nSys := s1.nSys + 1 }
        let t1 : wdt_task := ⟨ts, enable⟩
        ({ s2 with ctrl := { s2.ctrl with task := s2.ctrl.task.set task t1 } }, eWDT_OK)
      else
        (s1, mst)
    else
      (s, eWDT_ERROR)
  else
    (s, eWDT_ERROR_INIT)

/-- Function `wdt_task_get_enable` (`wdt.c:643-669`). -/
def wdt_task_get_enable (e : wdt_ext) (task : Nat) (ptr_ok : Bool)
    (s : wdt_state) : wdt_state × wdt_status × Option Bool :=
  if s.is_init = true then
    if task < e.nTasks ∧ ptr_ok = true then
      (s, eWDT_OK, some (s.ctrl.task.getD task dTask).enable)
    else
      (s, eWDT_ERROR, none)
  else
    (s, eWDT_ERROR_INIT, none)

/-- Public operations other than `wdt_start`, for sequencing claims. -/
inductive wdt_op : Type
  | op_hndl
  | op_report (task : Nat)
  | op_set_enable (task : Nat) (en : Bool)
  | op_get_enable (task : Nat) (ok : Bool)
  | op_is_init (ok : Bool)
  | op_init
deriving DecidableEq, Repr

/-- One public call (status discarded). -/
def wdt_step (e : wdt_ext) (s : wdt_state) : wdt_op → wdt_state
  | .op_hndl => (wdt_hndl e s).1
  | .op_report t => (wdt_task_report e t s).1
  | .op_set_enable t b => (wdt_task_set_enable e t b s).1
  | .op_get_enable t ok => (wdt_task_get_enable e t ok s).1
  | .op_is_init ok => (wdt_is_init ok s).1
  | .op_init => (wdt_init e s).1

/-- Run a sequence of public calls. -/
def wdt_run (e : wdt_ext) (s : wdt_state) : List wdt_op → wdt_state
  | [] => s
  | o :: os => wdt_run e (wdt_step e s o) os

end Wdt

namespace Wdt

open wdt_status

/-! ### Shared list helper lemmas -/

theorem getD_set_self {α : Type} (l : List α) (n : Nat) (a d : α)
    (h : n < l.length) : (l.set n a).getD n d = a := by
  simp [List.getD_eq_getElem?_getD, List.getElem?_set_self h]

theorem getD_set_ne {α : Type} (l : List α) (i j : Nat) (a d : α)
    (h : i ≠ j) : (l.set i a).getD j d = l.getD j d := by
  simp [List.getD_eq_getElem?_getD, List.getElem?_set_ne h]

theorem foldl_set_length {α : Type} (g : α → α) (d : α) (is : List Nat) :
    ∀ l : List α,
      (is.foldl (fun a i => a.set i (g (a.getD i d))) l).length = l.length := by
  induction is with
  | nil => intro l; rfl
  | cons i rest ih => intro l; simpa [List.length_set] using ih (l.set i (g (l.getD i d)))

/-- Characterisation of the index-bounded `for` loops of the C module: a fold
    of `set i (g (getD i))` over `List.range n` rewrites every entry below
    both `n` and the list length through `g` and leaves the rest alone. -/
theorem foldl_set_getD {α : Type} (g : α → α) (d : α) :
    ∀ (n : Nat) (l : List α) (j : Nat),
      ((List.range n).foldl (fun a i => a.set i (g (a.getD i d))) l).getD j d
        = if j < n ∧ j < l.length then g (l.getD j d) else l.getD j d := by
  intro n
  induction n with
  | zero => intro l j; simp [List.range_zero]
  | succ n ih =>
    intro l j
    rw [List.range_succ, List.foldl_append]
    simp only [List.foldl_cons, List.foldl_nil]
    by_cases hj : j = n
    · subst hj
      by_cases hl : j < l.length
      · rw [getD_set_self _ _ _ _ (by rw [foldl_set_length]; exact hl)]
        rw [ih l j]
        simp [hl, Nat.lt_irrefl, Nat.lt_succ_self]
      · rw [List.set_eq_of_length_le (by rw [foldl_set_length]; omega)]
        rw [ih l j]
        simp [hl]
    · rw [getD_set_ne _ _ _ _ _ (fun h => hj h.symm)]
      rw [ih l j]
      by_cases h1 : j < n
      · have h2 : j < n + 1 := by omega
        simp [h1, h2]
      · have h2 : ¬ j < n + 1 := by omega
        simp [h1, h2]

/-! ### Projection lemmas for the internal loops -/

theorem count_loop_proj (e : wdt_ext) (is : List Nat) :
    ∀ s : wdt_state,
      (count_loop e s is).ctrl.valid = s.ctrl.valid ∧
      (count_loop e s is).ctrl.last_kick = s.ctrl.last_kick ∧
      (count_loop e s is).ctrl.task = s.ctrl.task ∧
      (count_loop e s is).ctrl.start = s.ctrl.start ∧
      (count_loop e s is).ctrl.trace = s.ctrl.trace ∧
      (count_loop e s is).is_init = s.is_init ∧
      (count_loop e s is).cfg_table = s.cfg_table := by
  induction is with
  | nil => intro s; simp [count_loop]
  | cons i rest ih =>
    intro s
    simp only [count_loop]
    split
    · exact ih _
    · exact ih _

theorem check_loop_valid_mono (e : wdt_ext) (is : List Nat) :
    ∀ s : wdt_state,
      (check_loop e s is).ctrl.valid = true → s.ctrl.valid = true := by
  induction is with
  | nil => intro s h; simpa [check_loop] using h
  | cons i rest ih =>
    intro s h
    simp only [check_loop] at h
    split at h
    · split at h
      · simp at h
      · have h2 := ih _ h
        exact h2
    · have h2 := ih _ h
      exact h2

theorem kick_hndl_valid (e : wdt_ext) (s : wdt_state) :
    (wdt_kick_hndl e s).1.ctrl.valid = s.ctrl.valid := by
  simp only [wdt_kick_hndl, wdt_stats_count_hndl]
  split
  · split
    · exact (count_loop_proj e _ _).1
    · exact (count_loop_proj e _ _).1
  · exact (count_loop_proj e _ _).1

theorem check_reports_valid_mono (e : wdt_ext) (s : wdt_state) :
    (wdt_check_task_reports e s).ctrl.valid = true → s.ctrl.valid = true :=
  check_loop_valid_mono e _ s

theorem hndl_valid_mono (e : wdt_ext) (s : wdt_state) :
    (wdt_hndl e s).1.ctrl.valid = true → s.ctrl.valid = true := by
  simp only [wdt_hndl]
  split
  · split
    · intro h
      rw [kick_hndl_valid] at h
      exact check_reports_valid_mono e s h
    · exact fun h => h
  · exact fun h => h

theorem report_valid (e : wdt_ext) (t : Nat) (s : wdt_state) :
    (wdt_task_report e t s).1.ctrl.valid = s.ctrl.valid := by
  simp only [wdt_task_report]
  split
  · split
    · split
      · simp [wdt_stats_calc]
      · simp
    · rfl
  · rfl

theorem set_enable_valid (e : wdt_ext) (t : Nat) (b : Bool) (s : wdt_state) :
    (wdt_task_set_enable e t b s).1.ctrl.valid = s.ctrl.valid := by
  simp only [wdt_task_set_enable]
  split
  · split
    · split
      · simp
      · rfl
    · rfl
  · rfl

theorem get_enable_state (e : wdt_ext) (t : Nat) (ok : Bool) (s : wdt_state) :
    (wdt_task_get_enable e t ok s).1 = s := by
  simp only [wdt_task_get_enable]
  split
  · split <;> rfl
  · rfl

theorem is_init_state (ok : Bool) (s : wdt_state) : (wdt_is_init ok s).1 = s := by
  simp only [wdt_is_init]
  split <;> rfl

theorem init_valid (e : wdt_ext) (s : wdt_state) :
    (wdt_init e s).1.ctrl.valid = s.ctrl.valid := by
  simp only [wdt_init]
  split
  · split
    · split
      · simp [wdt_stats_init]
      · rfl
    · rfl
  · rfl

theorem step_valid_mono (e : wdt_ext) (s : wdt_state) (o : wdt_op) :
    (wdt_step e s o).ctrl.valid = true → s.ctrl.valid = true := by
  cases o with
  | op_hndl => exact hndl_valid_mono e s
  | op_report t => rw [wdt_step, report_valid]; exact fun h => h
  | op_set_enable t b => rw [wdt_step, set_enable_valid]; exact fun h => h
  | op_get_enable t ok => rw [wdt_step, get_enable_state]; exact fun h => h
  | op_is_init ok => rw [wdt_step, is_init_state]; exact fun h => h
  | op_init => rw [wdt_step, init_valid]; exact fun h => h

/-- C1: once the global validity flag is false, no sequence of `wdt_hndl`,
    `wdt_task_report`, `wdt_task_set_enable`, `wdt_task_get_enable`,
    `wdt_is_init` and `wdt_init` calls ever sets it back to true: `valid`
    remains false; only `wdt_start` writes `true` into it. -/
theorem C1_valid_latch (e : wdt_ext) (ops : List wdt_op) :
    ∀ s : wdt_state, s.ctrl.valid = false →
      (wdt_run e s ops).ctrl.valid = false := by
  induction ops with
  | nil => intro s h; simpa [wdt_run] using h
  | cons o os ih =>
    intro s h
    rw [wdt_run]
    apply ih
    cases hv : (wdt_step e s o).ctrl.valid with
    | false => rfl
    | true =>
      have h2 := step_valid_mono e s o hv
      rw [h] at h2
      exact Bool.noConfusion h2

end Wdt

namespace Wdt

open wdt_status

/-! ### Concrete fixtures -/

/-- A two-task environment with a non-constant tick source. -/
def eFix : wdt_ext :=
  ⟨fun k => k * 7, fun k => if k % 2 = 0 then eWDT_OK else eWDT_ERROR,
    fun _ => eWDT_OK, fun _ => eWDT_OK,
    some [⟨50, true⟩, ⟨100, false⟩], 2, 10⟩

/-- A started two-task state whose validity flag has already tripped. -/
def sInvalid : wdt_state :=
  ⟨true, ⟨[dStats, dStats], List.replicate 32 0, [⟨0, true⟩, ⟨0, false⟩],
      0, false, true⟩,
    some [⟨50, true⟩, ⟨100, false⟩], [0, 0], 0, 0, 0, 0⟩

/-- A sample call sequence exercising every operation other than start. -/
def opsFix : List wdt_op :=
  [.op_hndl, .op_report 0, .op_set_enable 1 true, .op_get_enable 0 true,
    .op_is_init true, .op_init, .op_hndl]

/-- Witness for C1 at a concrete invalid state and call sequence. -/
theorem C1_witness :
    (wdt_run eFix sInvalid opsFix).ctrl.valid = false :=
  C1_valid_latch eFix opsFix sInvalid rfl

/-! ### C2: kick gating -/

theorem kick_hndl_kicked (e : wdt_ext) (s : wdt_state) :
    (wdt_kick_hndl e s).2
      = (s.ctrl.valid
          && decide (wsub (sys_val e s.nSys) s.ctrl.last_kick ≥ e.kick_period)) := by
  simp only [wdt_kick_hndl]
  split
  · rename_i hv
    split
    · rename_i hp
      simp [hv, hp]
    · rename_i hp
      simp [hv, hp]
  · rename_i hv
    have hv2 : s.ctrl.valid = false := by
      cases h : s.ctrl.valid
      · rfl
      · exact absurd h hv
    simp [hv2]

theorem kick_hndl_last_kick (e : wdt_ext) (s : wdt_state) :
    (wdt_kick_hndl e s).1.ctrl.last_kick
      = (if (wdt_kick_hndl e s).2 = true then sys_val e s.nSys
         else s.ctrl.last_kick) := by
  simp only [wdt_kick_hndl, wdt_stats_count_hndl]
  split
  · split
    · rw [(count_loop_proj e _ _).2.1]; simp
    · rw [(count_loop_proj e _ _).2.1]; simp
  · rw [(count_loop_proj e _ _).2.1]; simp

/-- C2: on a handler tick the hardware kick primitive is invoked iff the
    validity flag holds and the wrapping distance from `last_kick` to `now`
    is at least the kick period; a kick updates `last_kick` to `now` (so a
    subsequent kick needs a full further period), and while `valid` is
    false no kick ever happens. -/
theorem C2_kick_gate (e : wdt_ext) (s : wdt_state) :
    ((wdt_kick_hndl e s).2 = true ↔
      (s.ctrl.valid = true ∧
        wsub (sys_val e s.nSys) s.ctrl.last_kick ≥ e.kick_period)) ∧
    ((wdt_kick_hndl e s).2 = true →
      (wdt_kick_hndl e s).1.ctrl.last_kick = sys_val e s.nSys) ∧
    (s.ctrl.valid = false → (wdt_kick_hndl e s).2 = false) ∧
    ((wdt_kick_hndl e s).2 = false →
      (wdt_kick_hndl e s).1.ctrl.last_kick = s.ctrl.last_kick) ∧
    ((wdt_kick_hndl e s).2 = true → ∀ (f : wdt_ext) (s2 : wdt_state),
      s2.ctrl.last_kick = (wdt_kick_hndl e s).1.ctrl.last_kick →
      (wdt_kick_hndl f s2).2 = true →
      wsub (sys_val f s2.nSys) (sys_val e s.nSys) ≥ f.kick_period) := by
  have hiff : (wdt_kick_hndl e s).2 = true ↔
      (s.ctrl.valid = true ∧
        wsub (sys_val e s.nSys) s.ctrl.last_kick ≥ e.kick_period) := by
    rw [kick_hndl_kicked]
    simp
  refine ⟨hiff, ?_, ?_, ?_, ?_⟩
  · intro h
    rw [kick_hndl_last_kick, if_pos h]
  · intro h
    rw [kick_hndl_kicked, h]
    simp
  · intro h
    rw [kick_hndl_last_kick, if_neg (by rw [h]; exact Bool.noConfusion)]
  · intro h f s2 hlk h2
    rw [kick_hndl_kicked] at h2
    simp only [Bool.and_eq_true, decide_eq_true_eq] at h2
    have h3 := h2.2
    rw [hlk, kick_hndl_last_kick, if_pos h] at h3
    exact h3

end Wdt

namespace Wdt

open wdt_status

/-- A one-task environment whose tick source always reads 25. -/
def eKick : wdt_ext :=
  ⟨fun _ => 25, fun _ => eWDT_OK, fun _ => eWDT_OK, fun _ => eWDT_OK,
    some [⟨50, true⟩], 1, 10⟩

/-- A started valid one-task state with `last_kick = 5`. -/
def sKick : wdt_state :=
  ⟨true, ⟨[dStats], List.replicate 32 0, [⟨20, true⟩], 5, true, true⟩,
    some [⟨50, true⟩], [0], 0, 0, 0, 0⟩

/-- Witness for C2: at tick 25 with `last_kick = 5` and period 10 the
    kick fires. -/
theorem C2_witness : (wdt_kick_hndl eKick sKick).2 = true :=
  (C2_kick_gate eKick sKick).1.mpr ⟨rfl, by decide⟩

/-! ### C3: elapsed-time arithmetic -/

/-- A one-task environment whose tick source reads `2^31` while the task
    last reported at tick 0 with timeout 100. -/
def eHuge : wdt_ext :=
  ⟨fun _ => 2147483648, fun _ => eWDT_OK, fun _ => eWDT_OK, fun _ => eWDT_OK,
    some [⟨100, true⟩], 1, 10⟩

/-- Started valid state for the same scenario. -/
def sHuge : wdt_state :=
  ⟨true, ⟨[dStats], List.replicate 32 0, [⟨0, true⟩], 0, true, true⟩,
    some [⟨100, true⟩], [0], 0, 0, 0, 0⟩

/-- Counterexample for C3: with `report_timestamp = 0` and `now = 2^31` the
    forward wrapping distance is `2^31`, far above the timeout 100, yet the
    checker does not trip validity, because the code compares the elapsed
    value after a cast to signed `int32_t` (where it is negative). -/
theorem C3_counterexample :
    wsub (sys_val eHuge 0) 0 = 2147483648 ∧
    (2147483648 : Nat) > 100 ∧
    task_trip (sys_val eHuge 0) 0 100 = false ∧
    (wdt_check_task_reports eHuge sHuge).ctrl.valid = true := by
  refine ⟨by decide, by decide, by decide, ?_⟩
  decide

/-- A one-task environment whose tick source reads 10 (wrapped past zero). -/
def eWrap : wdt_ext :=
  ⟨fun _ => 10, fun _ => eWDT_OK, fun _ => eWDT_OK, fun _ => eWDT_OK,
    some [⟨15, true⟩], 1, 10⟩

/-- Started valid state: the task last reported at tick `U32_MAX - 5` and
    has timeout 15, one less than the wrapped elapsed 16. -/
def sWrap15 : wdt_state :=
  ⟨true, ⟨[dStats], List.replicate 32 0, [⟨4294967290, true⟩], 0, true, true⟩,
    some [⟨15, true⟩], [0], 0, 0, 0, 0⟩

/-- Same state with timeout 16, equal to the wrapped elapsed 16. -/
def sWrap16 : wdt_state :=
  ⟨true, ⟨[dStats], List.replicate 32 0, [⟨4294967290, true⟩], 0, true, true⟩,
    some [⟨16, true⟩], [0], 0, 0, 0, 0⟩

/-- C3 amended: the checker computes `elapsed` by wrapping unsigned 32-bit
    subtraction `now - report_timestamp` and then reinterprets it (and the
    timeout) as signed `int32_t` before comparing.  The scenario
    `report_timestamp = U32_MAX - 5`, `now = 10` gives elapsed 16, and at
    that very input the checker trips exactly when 16 exceeds the timeout
    (it trips at timeout 15, not at timeout 16).  For every pair of
    timestamps whose wrapping forward distance is below `2^31` (with a
    timeout below `2^31`) the trip condition is exactly "forward distance
    exceeds timeout"; but when the forward distance is `2^31` or more the
    signed elapsed is negative and the task never trips, so the distance is
    not interpreted as the non-negative forward distance for every pair. -/
theorem C3_signed_elapsed :
    time_pass 10 (U32 - 6) = 16 ∧
    wsub 10 (U32 - 6) = 16 ∧
    (wdt_check_task_reports eWrap sWrap15).ctrl.valid = false ∧
    (wdt_check_task_reports eWrap sWrap16).ctrl.valid = true ∧
    (∀ now rts tmo : Nat,
      wsub now rts < 2147483648 → tmo < 2147483648 →
      (task_trip now rts tmo = true ↔ wsub now rts > tmo)) ∧
    (∀ now rts tmo : Nat,
      2147483648 ≤ wsub now rts → tmo < 2147483648 →
      task_trip now rts tmo = false) := by
  refine ⟨by decide, by decide, by decide, by decide, ?_, ?_⟩
  · intro now rts tmo h1 h2
    have hx : wsub now rts % U32 = wsub now rts :=
      Nat.mod_eq_of_lt (lt_trans h1 (by norm_num [U32]))
    have hy : tmo % U32 = tmo :=
      Nat.mod_eq_of_lt (lt_trans h2 (by norm_num [U32]))
    simp only [task_trip, time_pass, toInt32, hx, hy, if_pos h1, if_pos h2,
      decide_eq_true_eq, gt_iff_lt]
    exact ⟨fun h => by exact_mod_cast h, fun h => by exact_mod_cast h⟩
  · intro now rts tmo h1 h2
    have hw : wsub now rts < U32 := by
      unfold wsub
      exact Nat.mod_lt _ (by norm_num [U32])
    have hx : wsub now rts % U32 = wsub now rts := Nat.mod_eq_of_lt hw
    have hy : tmo % U32 = tmo :=
      Nat.mod_eq_of_lt (lt_trans h2 (by norm_num [U32]))
    simp only [task_trip, time_pass, toInt32, hx, hy,
      if_neg (show ¬ wsub now rts < 2147483648 by omega), if_pos h2,
      decide_eq_false_iff_not, gt_iff_lt, not_lt]
    have hwi : (wsub now rts : Int) < (U32 : Int) := by exact_mod_cast hw
    have hU : (U32 : Int) = 4294967296 := by norm_num [U32]
    omega

/-- Witness for C3's amended statement: the exact threshold at a concrete
    non-wrapping input, and the never-trip branch at forward distance
    `2^31`. -/
theorem C3_witness :
    (task_trip 300 100 150 = true ↔ wsub 300 100 > 150) ∧
    task_trip 2147483648 0 100 = false :=
  ⟨C3_signed_elapsed.2.2.2.2.1 300 100 150 (by decide) (by decide),
    C3_signed_elapsed.2.2.2.2.2 2147483648 0 100 (by decide) (by decide)⟩

end Wdt

namespace Wdt

open wdt_status

/-! ### C4: scan order, skipping, short-circuit -/

/-- The checker's violation predicate for a fixed tick reading `now`:
    task `i` is enabled and the code's trip test fires on it. -/
def violB (tasks : List wdt_task) (table : Option (List wdt_cfg))
    (now i : Nat) : Bool :=
  (tasks.getD i dTask).enable
    && task_trip now (tasks.getD i dTask).report_timestamp
        ((table.getD []).getD i dCfg).timeout

/-- Number of enabled tasks among a list of task indices. -/
def enabled_count (tasks : List wdt_task) (is : List Nat) : Nat :=
  (is.filter (fun j => (tasks.getD j dTask).enable)).length

theorem enabled_count_cons_true (tasks : List wdt_task) (i : Nat)
    (is : List Nat) (h : (tasks.getD i dTask).enable = true) :
    enabled_count tasks (i :: is) = 1 + enabled_count tasks is := by
  unfold enabled_count
  rw [List.filter_cons_of_pos (p := fun j => (tasks.getD j dTask).enable) h]
  simp [Nat.add_comm]

theorem enabled_count_cons_false (tasks : List wdt_task) (i : Nat)
    (is : List Nat) (h : ¬ (tasks.getD i dTask).enable = true) :
    enabled_count tasks (i :: is) = enabled_count tasks is := by
  unfold enabled_count
  rw [List.filter_cons_of_neg (by simpa using h)]

theorem check_loop_no_viol (e : wdt_ext) (now : Nat)
    (hnow : ∀ k, sys_val e k = now)
    (tasks : List wdt_task) (table : Option (List wdt_cfg)) (is : List Nat) :
    ∀ s : wdt_state, s.ctrl.task = tasks → s.cfg_table = table →
      (∀ i ∈ is, violB tasks table now i = false) →
      (check_loop e s is).ctrl = s.ctrl ∧
      (check_loop e s is).nSys = s.nSys + enabled_count tasks is := by
  induction is with
  | nil =>
    intro s htk htb hv
    exact ⟨rfl, by simp [check_loop, enabled_count]⟩
  | cons i rest ih =>
    intro s htk htb hv
    have hvi := hv i (List.mem_cons_self i rest)
    rw [violB, Bool.and_eq_false_iff] at hvi
    simp only [check_loop]
    by_cases hen : (tasks.getD i dTask).enable = true
    · rw [if_pos (by rw [htk]; exact hen)]
      have htrip : task_trip now (tasks.getD i dTask).report_timestamp
          ((table.getD []).getD i dCfg).timeout = false := by
        rcases hvi with h | h
        · rw [hen] at h; exact Bool.noConfusion h
        · exact h
      rw [hnow]
      rw [if_neg (by rw [htk, htb, htrip]; exact Bool.noConfusion)]
      have hres := ih { s with nSys := s.nSys + 1 } htk htb
        (fun j hj => hv j (List.mem_cons_of_mem i hj))
      refine ⟨hres.1, ?_⟩
      rw [hres.2, enabled_count_cons_true tasks i rest hen]
      show s.nSys + 1 + enabled_count tasks rest
        = s.nSys + (1 + enabled_count tasks rest)
      omega
    · rw [if_neg (by rw [htk]; exact hen)]
      have hres := ih s htk htb (fun j hj => hv j (List.mem_cons_of_mem i hj))
      refine ⟨hres.1, ?_⟩
      rw [hres.2, enabled_count_cons_false tasks i rest hen]

theorem check_loop_first_viol (e : wdt_ext) (now : Nat)
    (hnow : ∀ k, sys_val e k = now)
    (tasks : List wdt_task) (table : Option (List wdt_cfg)) (pre : List Nat) :
    ∀ (s : wdt_state) (i : Nat) (post : List Nat),
      s.ctrl.task = tasks → s.cfg_table = table →
      (∀ j ∈ pre, violB tasks table now j = false) →
      violB tasks table now i = true →
      (check_loop e s (pre ++ i :: post)).ctrl = { s.ctrl with valid := false } ∧
      (check_loop e s (pre ++ i :: post)).nSys
        = s.nSys + enabled_count tasks pre + 1 := by
  induction pre with
  | nil =>
    intro s i post htk htb hpre hvi
    rw [violB, Bool.and_eq_true] at hvi
    simp only [List.nil_append, check_loop]
    rw [if_pos (by rw [htk]; exact hvi.1)]
    rw [hnow]
    rw [if_pos (by rw [htk, htb]; exact hvi.2)]
    refine ⟨rfl, ?_⟩
    simp [enabled_count]
  | cons j pre ih =>
    intro s i post htk htb hpre hvi
    have hvj := hpre j (List.mem_cons_self j pre)
    rw [violB, Bool.and_eq_false_iff] at hvj
    simp only [List.cons_append, check_loop, List.append_eq]
    by_cases hen : (tasks.getD j dTask).enable = true
    · rw [if_pos (by rw [htk]; exact hen)]
      have htrip : task_trip now (tasks.getD j dTask).report_timestamp
          ((table.getD []).getD j dCfg).timeout = false := by
        rcases hvj with h | h
        · rw [hen] at h; exact Bool.noConfusion h
        · exact h
      rw [hnow]
      rw [if_neg (by rw [htk, htb, htrip]; exact Bool.noConfusion)]
      have hres := ih { s with nSys := s.nSys + 1 } i post htk htb
        (fun k hk => hpre k (List.mem_cons_of_mem j hk)) hvi
      refine ⟨hres.1, ?_⟩
      rw [hres.2, enabled_count_cons_true tasks j pre hen]
      show s.nSys + 1 + enabled_count tasks pre + 1
        = s.nSys + (1 + enabled_count tasks pre) + 1
      omega
    · rw [if_neg (by rw [htk]; exact hen)]
      have hres := ih s i post htk htb
        (fun k hk => hpre k (List.mem_cons_of_mem j hk)) hvi
      refine ⟨hres.1, ?_⟩
      rw [hres.2, enabled_count_cons_false tasks j pre hen]

/-- C4: on a handler tick (constant tick reading `now`) the checker visits
    tasks in registration order, skips disabled tasks, clears `valid` and
    stops scanning at the first enabled violating task (the systick-read
    counter advances only for the enabled tasks up to and including the
    violator), and leaves the control block unchanged when no enabled task
    violates. -/
theorem C4_first_violation (e : wdt_ext) (s : wdt_state) (now : Nat)
    (hnow : ∀ k, sys_val e k = now) :
    ((∀ i, i < e.nTasks → violB s.ctrl.task s.cfg_table now i = false) →
      (wdt_check_task_reports e s).ctrl = s.ctrl) ∧
    (∀ i, i < e.nTasks → violB s.ctrl.task s.cfg_table now i = true →
      (∀ j, j < i → violB s.ctrl.task s.cfg_table now j = false) →
      (wdt_check_task_reports e s).ctrl = { s.ctrl with valid := false } ∧
      (wdt_check_task_reports e s).nSys
        = s.nSys + enabled_count s.ctrl.task (List.range i) + 1) := by
  constructor
  · intro hno
    exact (check_loop_no_viol e now hnow s.ctrl.task s.cfg_table
      (List.range e.nTasks) s rfl rfl
      (fun i hi => hno i (List.mem_range.mp hi))).1
  · intro i hi hvi hpre
    have h1 : List.take i (List.range e.nTasks) = List.range i := by
      rw [List.take_range]
      congr 1
      omega
    have hilen : i < (List.range e.nTasks).length := by
      simpa using hi
    have h2 : List.drop i (List.range e.nTasks)
        = i :: List.drop (i + 1) (List.range e.nTasks) := by
      rw [List.drop_eq_getElem_cons hilen]
      rw [List.getElem_range]
    have hdec : List.range e.nTasks
        = List.range i ++ i :: List.drop (i + 1) (List.range e.nTasks) := by
      conv_lhs => rw [← List.take_append_drop i (List.range e.nTasks)]
      rw [h1, h2]
    rw [wdt_check_task_reports, hdec]
    exact check_loop_first_viol e now hnow s.ctrl.task s.cfg_table
      (List.range i) s i _ rfl rfl
      (fun j hj => hpre j (List.mem_range.mp hj)) hvi

/-- A three-task environment at constant tick 100; the second and third
    tasks are far beyond their timeouts. -/
def eScan : wdt_ext :=
  ⟨fun _ => 100, fun _ => eWDT_OK, fun _ => eWDT_OK, fun _ => eWDT_OK,
    some [⟨100, true⟩, ⟨5, true⟩, ⟨7, true⟩], 3, 10⟩

/-- A started valid three-task state: task 0 reported at tick 90, tasks 1
    and 2 last reported at tick 0. -/
def sScan : wdt_state :=
  ⟨true, ⟨[dStats, dStats, dStats], List.replicate 32 0,
      [⟨90, true⟩, ⟨0, true⟩, ⟨0, true⟩], 0, true, true⟩,
    some [⟨100, true⟩, ⟨5, true⟩, ⟨7, true⟩], [0, 0, 0], 0, 0, 0, 0⟩

/-- Witness for C4: the first violator is task 1; the scan clears `valid`
    and reads the systick exactly twice (tasks 0 and 1), never evaluating
    task 2. -/
theorem C4_witness :
    (wdt_check_task_reports eScan sScan).ctrl = { sScan.ctrl with valid := false } ∧
    (wdt_check_task_reports eScan sScan).nSys = 2 :=
  (C4_first_violation eScan sScan 100 (fun _ => rfl)).2 1 (by decide) (by decide)
    (fun j hj => by
      have hj0 : j = 0 := by omega
      subst hj0
      decide)

end Wdt

namespace Wdt

open wdt_status

/-! ### C5: double init -/

/-- A one-task environment (timeout 10) with tick readings 0, 5, 15, ...
    and all platform calls succeeding. -/
def eLife : wdt_ext :=
  ⟨fun k => [0, 5, 15, 15, 15, 15].getD k 0, fun _ => eWDT_OK, fun _ => eWDT_OK,
    fun _ => eWDT_OK, some [⟨10, true⟩], 1, 100⟩

/-- A freshly initialized, not yet started one-task state. -/
def sFresh : wdt_state :=
  ⟨true, ⟨[⟨0, 0, 4294967295, 0, 0, 0⟩], List.replicate 32 0, [⟨0, true⟩],
      0, false, false⟩,
    some [⟨10, true⟩], [0], 0, 0, 0, 0⟩

/-- Counterexample for C5: a second `wdt_init` on an already-initialized
    state returns `eWDT_OK` (success), not an `AlreadyInitialized` error. -/
theorem C5_counterexample :
    (wdt_init eLife sFresh).2 = eWDT_OK ∧ (wdt_init eLife sFresh).1 = sFresh :=
  ⟨rfl, rfl⟩

/-- C5 amended: a second `wdt_init` without an intervening deinit is a
    no-op returning success: it reports `eWDT_OK` and leaves the whole
    supervisor state (init flag, tasks, statistics) unchanged. -/
theorem C5_reinit_noop (e : wdt_ext) (s : wdt_state) (h : s.is_init = true) :
    wdt_init e s = (s, eWDT_OK) := by
  rw [wdt_init, h]
  simp

/-- Witness for C5 at the concrete initialized state. -/
theorem C5_witness : wdt_init eLife sFresh = (sFresh, eWDT_OK) :=
  C5_reinit_noop eLife sFresh rfl

/-! ### C6: trace buffer insert (code bug) -/

/-- C6: the insert loop at `wdt.c:259-262` copies upward in increasing
    index order (`trace[i+1] = trace[i]` for `i = 0..30`), so every slot
    from 1 to 31 receives the old head: after inserting task ids 1, 2, 3
    into a zeroed buffer the code yields `[3, 2, 2, ..., 2]`, not the
    shifted history `[3, 2, 1, 0, ..., 0]` that the insert's own comment
    ("make space for new") and the spec describe. -/
theorem C6_trace_flood :
    wdt_trace_buffer_put 3 (wdt_trace_buffer_put 2 (wdt_trace_buffer_put 1
        (List.replicate 32 0))) = 3 :: List.replicate 31 2 ∧
    wdt_trace_buffer_put 3 (wdt_trace_buffer_put 2 (wdt_trace_buffer_put 1
        (List.replicate 32 0))) ≠ 3 :: 2 :: 1 :: List.replicate 29 0 := by
  exact ⟨by decide, by decide⟩

/-! ### C7: per-task statistics -/

/-- A one-task environment with tick readings 100, 150, 170. -/
def eRep : wdt_ext :=
  ⟨fun k => [100, 150, 170].getD k 0, fun _ => eWDT_OK, fun _ => eWDT_OK,
    fun _ => eWDT_OK, some [⟨10, true⟩], 1, 100⟩

/-- Three reports at ticks 100, 150, 170 on the fresh state. -/
def sRep3 : wdt_state :=
  (wdt_task_report eRep 0 (wdt_task_report eRep 0
    (wdt_task_report eRep 0 sFresh).1).1).1

/-- Counterexample for C7: a task that reports at ticks 100, 150 and 170
    accumulates three samples (each report folds one delta), so
    `num_of_samp = 3`, `avg = 56` and `max = 100` - not the claimed
    `num_of_samp = 2`, `avg = 35`, `max = 50`. -/
theorem C7_counterexample :
    (sRep3.ctrl.stats.getD 0 dStats).num_of_samp = 3 ∧
    (sRep3.ctrl.stats.getD 0 dStats).avg = 56 ∧
    (sRep3.ctrl.stats.getD 0 dStats).max = 100 ∧
    ¬ ((sRep3.ctrl.stats.getD 0 dStats).num_of_samp = 2 ∧
       (sRep3.ctrl.stats.getD 0 dStats).avg = 35 ∧
       (sRep3.ctrl.stats.getD 0 dStats).max = 50) := by
  refine ⟨by decide, by decide, by decide, ?_⟩
  intro h
  exact absurd h.1 (by decide)

theorem clear_timings_min (n : Nat) (stats : List wdt_stats) (i : Nat)
    (h1 : i < n) (h2 : i < stats.length) :
    ((wdt_stats_clear_timings n stats).getD i dStats).min = 4294967295 := by
  have key : (wdt_stats_clear_timings n stats).getD i dStats
      = { stats.getD i dStats with
          avg := 0, sum := 0, max := 0, min := 4294967295 } := by
    have h := foldl_set_getD
      (fun st => ({ st with avg := 0, sum := 0, max := 0, min := 4294967295 } : wdt_stats))
      dStats n stats i
    rw [if_pos ⟨h1, h2⟩] at h
    exact h
  rw [key]

/-- Start at tick 100 (seeding `report_timestamp = 100`), then reports at
    ticks 150 and 170. -/
def sRep2 : wdt_state :=
  (wdt_task_report eRep 0 (wdt_task_report eRep 0 (wdt_start eRep sFresh).1).1).1

/-- C7 amended: every report folds one inter-report delta into the task's
    statistics - `num_of_samp` is incremented per report, `avg` is the
    truncating division `sum / num_of_samp`, `min`/`max` compare the new
    delta against the previous extreme, and `min` is pre-seeded to
    `0xFFFFFFFF` at init; the figures `avg = 35`, `min = 20`, `max = 50`,
    `num_of_samp = 2` arise from the two deltas 50 and 20, i.e. after a
    start (or earlier report) at tick 100 followed by reports at ticks 150
    and 170 - not after three reports at 100, 150, 170. -/
theorem C7_stats_recurrence :
    (∀ (t ts prev : Nat) (ctrl : wdt_ctrl), t < ctrl.stats.length →
      (wdt_stats_calc t ts prev ctrl).stats.getD t dStats
        = ⟨u32 ((ctrl.stats.getD t dStats).sum + wsub ts prev)
              / u32 ((ctrl.stats.getD t dStats).num_of_samp + 1),
           u32 ((ctrl.stats.getD t dStats).sum + wsub ts prev),
           Nat.min (ctrl.stats.getD t dStats).min (wsub ts prev),
           Nat.max (ctrl.stats.getD t dStats).max (wsub ts prev),
           u32 ((ctrl.stats.getD t dStats).num_of_reports + 1),
           u32 ((ctrl.stats.getD t dStats).num_of_samp + 1)⟩) ∧
    (∀ (n : Nat) (stats : List wdt_stats) (i : Nat), i < n → i < stats.length →
      ((wdt_stats_clear_timings n stats).getD i dStats).min = 4294967295) ∧
    sRep2.ctrl.stats.getD 0 dStats = ⟨35, 70, 20, 50, 2, 2⟩ := by
  refine ⟨?_, clear_timings_min, by decide⟩
  intro t ts prev ctrl h
  rw [wdt_stats_calc]
  exact getD_set_self _ _ _ _ h

/-- Witness for C7: the recurrence applied to the fresh state's statistics
    with a delta of 50. -/
theorem C7_witness :
    (wdt_stats_calc 0 150 100 sFresh.ctrl).stats.getD 0 dStats
      = ⟨50, 50, 50, 50, 1, 1⟩ :=
  C7_stats_recurrence.1 0 150 100 sFresh.ctrl (by decide)

end Wdt

namespace Wdt

open wdt_status

/-! ### C8: report counters -/

/-- Start at tick 0, then one report at tick 5 (timeout 10). -/
def sC8a : wdt_state := (wdt_task_report eLife 0 (wdt_start eLife sFresh).1).1

/-- One handler tick at tick 15: a full timeout window (10) has elapsed. -/
def sC8b : wdt_state := (wdt_hndl eLife sC8a).1

/-- Counterexample for C8: there is no independent lifetime counter.  After
    one report since init, `stats[0].num_of_reports = 1`; a handler tick
    that observes an elapsed timeout window resets that very same field to
    0, so the count of reports accumulated since init is changed by the
    window reset. -/
theorem C8_counterexample :
    (sC8a.ctrl.stats.getD 0 dStats).num_of_reports = 1 ∧
    (sC8b.ctrl.stats.getD 0 dStats).num_of_reports = 0 := by
  exact ⟨by decide, by decide⟩

/-- C8 amended: the per-window counter and the per-task report counter are
    one and the same field `stats[i].num_of_reports`: each report
    increments it, and the handler tick clears exactly it (not a separate
    counter) whenever a full timeout window has elapsed, leaving the
    statistics untouched otherwise. -/
theorem C8_window_counter :
    (∀ (t ts prev : Nat) (ctrl : wdt_ctrl), t < ctrl.stats.length →
      ((wdt_stats_calc t ts prev ctrl).stats.getD t dStats).num_of_reports
        = u32 ((ctrl.stats.getD t dStats).num_of_reports + 1)) ∧
    (∀ (e : wdt_ext) (s : wdt_state) (i : Nat), i < s.ctrl.stats.length →
      wsub (sys_val e s.nSys) (s.count_ts.getD i 0)
          ≥ ((s.cfg_table.getD []).getD i dCfg).timeout →
      ((count_loop e s [i]).ctrl.stats.getD i dStats).num_of_reports = 0) ∧
    (∀ (e : wdt_ext) (s : wdt_state) (i : Nat),
      ¬ wsub (sys_val e s.nSys) (s.count_ts.getD i 0)
          ≥ ((s.cfg_table.getD []).getD i dCfg).timeout →
      (count_loop e s [i]).ctrl.stats = s.ctrl.stats) := by
  refine ⟨?_, ?_, ?_⟩
  · intro t ts prev ctrl h
    simp only [wdt_stats_calc]
    rw [getD_set_self _ _ _ _ h]
  · intro e s i hlen hw
    simp only [count_loop]
    rw [if_pos hw]
    exact getD_set_self _ _ _ _ hlen ▸ rfl
  · intro e s i hw
    simp only [count_loop]
    rw [if_neg hw]

/-- Witness for C8: the increment branch applied right after start. -/
theorem C8_witness :
    ((wdt_stats_calc 0 5 0 (wdt_start eLife sFresh).1.ctrl).stats.getD 0
        dStats).num_of_reports = 1 :=
  C8_window_counter.1 0 5 0 (wdt_start eLife sFresh).1.ctrl (by decide)

/-! ### C9: mutex failure surfacing -/

/-- A one-task environment whose mutex acquisition always fails. -/
def eMtxFail : wdt_ext :=
  ⟨fun _ => 42, fun _ => eWDT_ERROR, fun _ => eWDT_OK, fun _ => eWDT_OK,
    some [⟨10, true⟩], 1, 100⟩

/-- Counterexample for C9: with mutex acquisition failing,
    `wdt_task_report` still returns `eWDT_OK` - the platform failure is
    not surfaced to the caller. -/
theorem C9_counterexample :
    eMtxFail.mutex sFresh.nMtx = eWDT_ERROR ∧
    (wdt_task_report eMtxFail 0 sFresh).2 = eWDT_OK := by
  exact ⟨by decide, by decide⟩

/-- C9 amended: only `wdt_task_set_enable` surfaces a failed mutex
    acquisition (returning the mutex status); `wdt_task_report` instead
    silently skips the statistics/trace update, still stores the new
    report timestamp, and returns `eWDT_OK`. -/
theorem C9_mutex_surfacing (e : wdt_ext) (s : wdt_state) (t : Nat) (b : Bool)
    (hinit : s.is_init = true) (ht : t < e.nTasks)
    (htl : t < s.ctrl.task.length)
    (hm : ¬ e.mutex s.nMtx = eWDT_OK) :
    (wdt_task_set_enable e t b s).2 = e.mutex s.nMtx ∧
    (wdt_task_report e t s).2 = eWDT_OK ∧
    (wdt_task_report e t s).1.ctrl.stats = s.ctrl.stats ∧
    (wdt_task_report e t s).1.ctrl.trace = s.ctrl.trace ∧
    ((wdt_task_report e t s).1.ctrl.task.getD t dTask).report_timestamp
      = sys_val e s.nSys := by
  have hse : (wdt_task_set_enable e t b s).2 = e.mutex s.nMtx := by
    simp only [wdt_task_set_enable]
    rw [if_pos hinit, if_pos ht, if_neg hm]
  have hrep : wdt_task_report e t s
      = ({ s with
            nSys := s.nSys + 1
            nMtx := s.nMtx + 1
            ctrl := { s.ctrl with
              task := s.ctrl.task.set t
                { s.ctrl.task.getD t dTask with
                    report_timestamp := sys_val e s.nSys } } }, eWDT_OK) := by
    simp only [wdt_task_report]
    rw [if_pos hinit, if_pos ht, if_neg hm]
  refine ⟨hse, ?_, ?_, ?_, ?_⟩
  · rw [hrep]
  · rw [hrep]
  · rw [hrep]
  · rw [hrep]
    exact congrArg wdt_task.report_timestamp (getD_set_self _ _ _ _ htl)

/-- Witness for C9 at the concrete failing-mutex environment. -/
theorem C9_witness :
    (wdt_task_set_enable eMtxFail 0 true sFresh).2 = eMtxFail.mutex 0 ∧
    (wdt_task_report eMtxFail 0 sFresh).2 = eWDT_OK :=
  ⟨(C9_mutex_surfacing eMtxFail sFresh 0 true rfl (by decide) (by decide)
      (by decide)).1,
    (C9_mutex_surfacing eMtxFail sFresh 0 true rfl (by decide) (by decide)
      (by decide)).2.1⟩

/-! ### C10: start is not atomic on platform failure -/

/-- C10: called on an initialized, not-yet-started state whose platform
    start primitive fails, `wdt_start` returns the failing status with the
    start flag still false, but its earlier writes persist: `valid` is
    true, and `last_kick` and every task's `report_timestamp` hold the
    snapshot timestamp. -/
theorem C10_start_not_atomic (e : wdt_ext) (s : wdt_state)
    (hinit : s.is_init = true) (hs0 : s.ctrl.start = false)
    (hlen : s.ctrl.task.length = e.nTasks)
    (hfail : ¬ e.if_start s.nIfStart = eWDT_OK) :
    (wdt_start e s).2 = e.if_start s.nIfStart ∧
    ¬ (wdt_start e s).2 = eWDT_OK ∧
    (wdt_start e s).1.ctrl.start = false ∧
    (wdt_start e s).1.ctrl.valid = true ∧
    (wdt_start e s).1.ctrl.last_kick = sys_val e s.nSys ∧
    (∀ i, i < e.nTasks →
      ((wdt_start e s).1.ctrl.task.getD i dTask).report_timestamp
        = sys_val e s.nSys) := by
  have hrun : wdt_start e s
      = ({ s with
            nSys := s.nSys + 1
            nIfStart := s.nIfStart + 1
            ctrl := { s.ctrl with
              last_kick := sys_val e s.nSys
              valid := true
              task := (List.range e.nTasks).foldl
                (fun l i => l.set i
                  ({ l.getD i dTask with
                      report_timestamp := sys_val e s.nSys }))
                s.ctrl.task } }, e.if_start s.nIfStart) := by
    simp only [wdt_start]
    rw [if_pos hinit, if_neg hfail]
  refine ⟨?_, ?_, ?_, ?_, ?_, ?_⟩
  · rw [hrun]
  · rw [hrun]; exact hfail
  · rw [hrun]; exact hs0
  · rw [hrun]
  · rw [hrun]
  · intro i hi
    rw [hrun]
    have h := foldl_set_getD
      (fun t => ({ t with report_timestamp := sys_val e s.nSys } : wdt_task))
      dTask e.nTasks s.ctrl.task i
    rw [if_pos ⟨hi, by omega⟩] at h
    exact congrArg wdt_task.report_timestamp h

/-- A one-task environment whose platform start primitive fails. -/
def eStartFail : wdt_ext :=
  ⟨fun _ => 77, fun _ => eWDT_OK, fun _ => eWDT_OK, fun _ => eWDT_ERROR,
    some [⟨10, true⟩], 1, 100⟩

/-- Witness for C10 at the concrete failing-start environment. -/
theorem C10_witness :
    (wdt_start eStartFail sFresh).2 = eWDT_ERROR ∧
    (wdt_start eStartFail sFresh).1.ctrl.start = false ∧
    (wdt_start eStartFail sFresh).1.ctrl.valid = true ∧
    (wdt_start eStartFail sFresh).1.ctrl.last_kick = 77 ∧
    ((wdt_start eStartFail sFresh).1.ctrl.task.getD 0 dTask).report_timestamp
      = 77 := by
  have h := C10_start_not_atomic eStartFail sFresh rfl rfl rfl (by decide)
  exact ⟨h.1, h.2.2.1, h.2.2.2.1, h.2.2.2.2.1, h.2.2.2.2.2 0 (by decide)⟩

end Wdt
